import Mathlib

/-!
Verification of the pipeek streaming search engine (`src/pipeek/src.py`)
against its natural-language specification.

Bytes are modelled as `Nat` values and byte strings as `List Nat`; a stream
is the logical (post-decompression) byte sequence it delivers, with
`stream.read(n)` returning the next `min n remaining` bytes, as a buffered
reader over a regular file does.
-/

namespace Pipeek

/-- Match record from src.py (`PipeekMatch`).  The wall-clock
`elapsed_time` field is omitted: it carries no searchable content and is
explicitly excluded from match identity by the spec. -/
structure PipeekMatch where
  match_value : List Nat
  absolute_position : Int
  left_context : List Nat
  right_context : List Nat
deriving DecidableEq

/-- Python slice `b[-k:]`: for `k = 0` this is `b[0:]`, the whole byte
string; for `k > 0` it is the suffix of length `min k (length b)`. -/
def pySuffix (k : Nat) (b : List Nat) : List Nat :=
  if k = 0 then b else b.drop (b.length - k)

/-- Predicate behind `bytes.find`: the needle occurs in the haystack at
index `i` (the slice of length `len needle` starting at `i` equals the
needle and lies inside the haystack). -/
def occursAt (needle haystack : List Nat) (i : Nat) : Bool :=
  decide (i + needle.length ≤ haystack.length) &&
    ((haystack.drop i).take needle.length == needle)

/-- Linear probe for `bytes.find`: try indices `i, i+1, ...` for at most
`steps` candidates, returning the first hit. -/
def pyFindAux (needle haystack : List Nat) : Nat → Nat → Option Nat
  | _, 0 => none
  | i, steps + 1 =>
    if occursAt needle haystack i then some i
    else pyFindAux needle haystack (i + 1) steps

/-- Python `haystack.find(needle, start)`: the least `i ≥ start` at which
the needle occurs, `none` standing for Python's `-1`.  Candidate start
indices range over `start .. length haystack` (for the empty needle,
`find` returns `start` whenever `start ≤ len(haystack)`). -/
def pyFind (needle haystack : List Nat) (start : Nat) : Option Nat :=
  pyFindAux needle haystack start (haystack.length + 1 - start)

/-- Loop body of `iter_needles_idx` from src.py: after yielding `i`, the
next search starts at `i + 1`.  `fuel` bounds the iteration count; since
yielded indices strictly increase and never exceed `length haystack`,
`length haystack + 2` iterations are always enough. -/
def iter_needles_loop (needle haystack : List Nat) : Nat → Nat → List Nat
  | 0, _ => []
  | fuel + 1, start =>
    match pyFind needle haystack start with
    | none => []
    | some i => i :: iter_needles_loop needle haystack fuel (i + 1)

/-- `iter_needles_idx(needle, haystack)` from src.py: indices where the
needle occurs, produced by repeated `find` calls, each restarting at the
previous hit plus one. -/
def iter_needles_idx (needle haystack : List Nat) : List Nat :=
  iter_needles_loop needle haystack (haystack.length + 2) 0

/-- Loop of `scan_stream` from src.py, lines 193-216, with the stream
represented by the not-yet-read bytes `rem`.  Each iteration reads
`chunk = rem.take buffer_size` (empty exactly when the walrus condition
`stream.read(buffer_size)` is falsy and the Python loop stops), forms
`window = tail ++ chunk` (the code reuses the name `chunk` for it), emits
one `PipeekMatch` per occurrence index, then keeps
`tail = window[-(around_context + len_pattern):]` and advances `position`
by `len(window) - len(tail)`.  `fuel` bounds the iteration count; every
iteration with a non-empty chunk consumes at least one byte of `rem`, so
`length rem + 1` is always enough fuel. -/
def scan_stream_loop (pattern : List Nat) (around_context buffer_size : Nat) :
    Nat → List Nat → List Nat → Int → List PipeekMatch
  | 0, _, _, _ => []
  | fuel + 1, tail, rem, position =>
    let chunk := rem.take buffer_size
    if chunk = [] then []
    else
      let window := tail ++ chunk
      let len_pattern := pattern.length
      let ms := (iter_needles_idx pattern window).map (fun index =>
        { match_value := pattern
          absolute_position := position + (index : Int)
          left_context :=
            (window.drop (index - around_context)).take
              (index - (index - around_context))
          right_context :=
            (window.drop (index + len_pattern)).take around_context })
      let tail2 := pySuffix (around_context + len_pattern) window
      let position2 := position + ((window.length - tail2.length : Nat) : Int)
      ms ++ scan_stream_loop pattern around_context buffer_size fuel
        tail2 (rem.drop buffer_size) position2

/-- `scan_stream(stream, pattern, around_context, buffer_size)` from
src.py: the full list of matches yielded over the logical stream, with
the source's initial state `tail = b""` and `position = -1`. -/
def scan_stream (stream pattern : List Nat)
    (around_context buffer_size : Nat) : List PipeekMatch :=
  scan_stream_loop pattern around_context buffer_size
    (stream.length + 1) [] stream (-1)

/-- Instrumentation of `scan_stream_loop` for stating its internal
invariant: the pair `(tail, window)` of each loop iteration, in the order
the iterations run, with exactly the state updates of the source loop. -/
def scan_states_loop (pattern : List Nat) (around_context buffer_size : Nat) :
    Nat → List Nat → List Nat → List (List Nat × List Nat)
  | 0, _, _ => []
  | fuel + 1, tail, rem =>
    let chunk := rem.take buffer_size
    if chunk = [] then []
    else
      let window := tail ++ chunk
      let tail2 := pySuffix (around_context + pattern.length) window
      (tail, window) :: scan_states_loop pattern around_context buffer_size
        fuel tail2 (rem.drop buffer_size)

/-- The `(tail, window)` pairs traversed by `scan_stream` on a given
stream, starting from the source's initial state `tail = b""`. -/
def scan_states (stream pattern : List Nat)
    (around_context buffer_size : Nat) : List (List Nat × List Nat) :=
  scan_states_loop pattern around_context buffer_size
    (stream.length + 1) [] stream

/-- Abstract model of a hashlib digest: `hash_digest name fed` stands for
the hex-encoded digest of algorithm `name` over the byte sequence `fed`.
Digests of distinct contents are distinct (collision-free abstraction of
a cryptographic hash), which the pairing makes literal. -/
def hash_digest (name : String) (fed : List Nat) : String × List Nat :=
  (name, fed)

/-- `check_sum(stream, hexdigested_hash, name)` from src.py, lines 89-98.
The body is `for chunk in stream.read(8_388_608): hash.update(chunk)`: a
single read of at most 8 MiB whose result is then iterated byte by byte,
each iteration handing an `int` to `hash.update`, which raises
`TypeError` on the first byte.  Only an empty stream reaches the digest
comparison, with nothing fed to the hash. -/
def check_sum (stream : List Nat) (hexdigested_hash : String × List Nat)
    (name : String) : Except String Bool :=
  match stream.take 8388608 with
  | [] => Except.ok (decide (hash_digest name [] = hexdigested_hash))
  | _ :: _ => Except.error "TypeError"

/-- Stream logic of the per-file handler inside `peek_at` from src.py,
lines 290-305: `file.seek(index - around_context)` (a negative target
raises `OSError` on a regular file, modelled as `none`), a read of
`length + 2 * around_context` bytes clamped at end of stream, and the
three slices `chunk[:offset]`, `chunk[offset : offset + length]`,
`chunk[offset + length:]` with `offset = max(0, around_context)`.  The
surrounding tree walk, configuration access and rendering are spec-level
collaborators handled elsewhere. -/
def peek_at (stream : List Nat) (index length around_context : Nat) :
    Option PipeekMatch :=
  if (index : Int) - (around_context : Int) < 0 then none
  else
    let chunk := (stream.drop (index - around_context)).take
      (length + 2 * around_context)
    let offset := max 0 around_context
    some { match_value := (chunk.drop offset).take length
           absolute_position := (index : Int)
           left_context := chunk.take offset
           right_context := chunk.drop (offset + length) }

/-- Paths as lists of components, matching pathlib's part sequences:
`Path(dirpath) / filename` appends one component. -/
abbrev PPath := List String

/-- `walk(*roots)` from src.py, lines 157-172.  The filesystem is passed
in as the two primitives the code calls: `Path.is_dir` and `os.walk`
(the top-down `(dirpath, dirnames, filenames)` triples of a directory;
`dirnames` is unused by `walk`).  The Python set `{Path(p) for p in
roots}` is modelled as `dedup` (set membership is exact path equality;
the member iteration order is not contractual). -/
def walk (is_dir : PPath → Bool)
    (os_walk : PPath → List (PPath × List String))
    (roots : List PPath) : List PPath :=
  (roots.dedup).flatMap (fun path =>
    if is_dir path then
      (os_walk path).flatMap (fun wd =>
        wd.2.map (fun filename => wd.1 ++ [filename]))
    else [path])

/-- Result of `open_stream` from src.py, lines 132-154, by constructor:
`stdinBuffer` is `sys.stdin.buffer` returned directly (no decompression
wrapper of any kind), and the other constructors are the gzip, bz2, lzma
and raw binary opens of the same path. -/
inductive Opened where
  | stdinBuffer
  | gzipOpen
  | bz2Open
  | lzmaOpen
  | rawOpen
deriving DecidableEq

/-- Python `Path(p).name`: the part of the path after the last slash. -/
def path_name (p : String) : String :=
  String.mk (((p.data.reverse).takeWhile (fun c => c ≠ '/')).reverse)

/-- Python `Path(p).suffix`: the final component's extension from its
last dot, empty when there is no dot, when the name starts with its only
dot (hidden file), or when the dot is the final character. -/
def path_suffix (p : String) : String :=
  let name := (path_name p).data
  let rev := name.reverse
  match rev.findIdx? (fun c => c = '.') with
  | none => ""
  | some j =>
    if 0 < j ∧ j + 1 < name.length then
      String.mk ((rev.take (j + 1)).reverse)
    else ""

/-- `open_stream(file, force_gzip)` from src.py: the stdin sentinel check
`path == Path("-")` comes first, then the extension dispatch
(case-insensitive) with `force_gzip` forcing the gzip branch. -/
def open_stream (file : String) (force_gzip : Bool) : Opened :=
  if file = "-" then Opened.stdinBuffer
  else
    let ext := (path_suffix file).toLower
    if force_gzip || ext == ".gz" then Opened.gzipOpen
    else if ext == ".bz2" || ext == ".bz" then Opened.bz2Open
    else if ext == ".xz" || ext == ".lzma" then Opened.lzmaOpen
    else Opened.rawOpen

/-! ## Helper lemmas -/

theorem pySuffix_length_le (k : Nat) (b : List Nat) (hk : k ≠ 0) :
    (pySuffix k b).length ≤ k := by
  unfold pySuffix
  rw [if_neg hk]
  rw [List.length_drop]
  omega

theorem occursAt_nil (haystack : List Nat) (i : Nat)
    (h : i ≤ haystack.length) : occursAt [] haystack i = true := by
  unfold occursAt
  simp [h]

theorem pyFind_nil_of_le (haystack : List Nat) (start : Nat)
    (h : start ≤ haystack.length) : pyFind [] haystack start = some start := by
  unfold pyFind
  have hs : haystack.length + 1 - start = (haystack.length - start) + 1 := by
    omega
  rw [hs]
  unfold pyFindAux
  rw [if_pos (occursAt_nil haystack start h)]

theorem pyFind_nil_of_gt (haystack : List Nat) (start : Nat)
    (h : haystack.length < start) : pyFind [] haystack start = none := by
  unfold pyFind
  have hs : haystack.length + 1 - start = 0 := by omega
  rw [hs]
  rfl

theorem iter_needles_loop_nil_gt (haystack : List Nat) (fuel start : Nat)
    (h : haystack.length < start) :
    iter_needles_loop [] haystack fuel start = [] := by
  cases fuel with
  | zero => rfl
  | succ f =>
    simp only [iter_needles_loop, pyFind_nil_of_gt haystack start h]

theorem iter_needles_loop_nil_length (haystack : List Nat) :
    ∀ fuel start, start ≤ haystack.length →
      haystack.length - start + 2 ≤ fuel →
      (iter_needles_loop [] haystack fuel start).length =
        haystack.length - start + 1 := by
  intro fuel
  induction fuel with
  | zero => intro start h1 h2; omega
  | succ f ih =>
    intro start h1 h2
    simp only [iter_needles_loop, pyFind_nil_of_le haystack start h1,
      List.length_cons]
    by_cases hlt : start < haystack.length
    · rw [ih (start + 1) (by omega) (by omega)]
      omega
    · rw [iter_needles_loop_nil_gt haystack f (start + 1) (by omega)]
      simp
      omega

theorem iter_needles_idx_nil_length (haystack : List Nat) :
    (iter_needles_idx [] haystack).length = haystack.length + 1 := by
  unfold iter_needles_idx
  have := iter_needles_loop_nil_length haystack (haystack.length + 2) 0
    (Nat.zero_le _) (by omega)
  simpa using this

theorem scan_states_loop_size_bound (pattern : List Nat)
    (around_context buffer_size : Nat) (hp : pattern ≠ []) :
    ∀ fuel tail rem, tail.length ≤ around_context + pattern.length →
      ∀ st ∈ scan_states_loop pattern around_context buffer_size fuel tail rem,
        st.1.length ≤ around_context + pattern.length ∧
        st.2.length ≤ buffer_size + around_context + pattern.length := by
  have hpl : pattern.length ≠ 0 := by
    simpa [List.length_eq_zero] using hp
  intro fuel
  induction fuel with
  | zero => intro tail rem ht st hst; simp [scan_states_loop] at hst
  | succ f ih =>
    intro tail rem ht st hst
    by_cases hc : rem.take buffer_size = []
    · simp [scan_states_loop, hc] at hst
    · simp only [scan_states_loop, hc, if_neg, reduceIte,
        List.mem_cons] at hst
      rcases hst with hst | hst
      · subst hst
        refine ⟨ht, ?_⟩
        have hchunk : (rem.take buffer_size).length ≤ buffer_size := by
          rw [List.length_take]; omega
        simp only [List.length_append]
        omega
      · exact ih _ _ (pySuffix_length_le _ _ (by omega)) st hst

/-! ## Claim theorems -/

/-- C10: at the start of every iteration of the scan loop (non-empty
pattern), the carried tail has length at most
`around_context + len(pattern)`, and therefore every scanned window has
length at most `buffer_size + around_context + len(pattern)`: the scan's
working state is bounded regardless of stream length. -/
theorem scan_state_size_bound (stream pattern : List Nat)
    (around_context buffer_size : Nat) (hp : pattern ≠ [])
    (st : List Nat × List Nat)
    (hst : st ∈ scan_states stream pattern around_context buffer_size) :
    st.1.length ≤ around_context + pattern.length ∧
    st.2.length ≤ buffer_size + around_context + pattern.length := by
  exact scan_states_loop_size_bound pattern around_context buffer_size hp
    _ [] stream (by simp) st hst

/-- Witness for C10 at the concrete scan of `b"ab"` for `b"a"` with
`around_context = 0`, `buffer_size = 2`. -/
theorem scan_state_size_bound_witness :
    (([] : List Nat).length ≤ 0 + ([97] : List Nat).length ∧
     ([97, 98] : List Nat).length ≤ 2 + 0 + ([97] : List Nat).length) :=
  scan_state_size_bound [97, 98] [97] 0 2 (by decide)
    ([], [97, 98]) (by decide)

theorem slice_concat (c : List Nat) (o l : Nat) :
    c.take o ++ ((c.drop o).take l ++ c.drop (o + l)) = c := by
  have hdd : c.drop (o + l) = (c.drop o).drop l := by
    rw [List.drop_drop, Nat.add_comm]
  rw [hdd, List.take_append_drop, List.take_append_drop]

/-- C1: the very first byte of a stream that equals the pattern is
reported with `absolute_position = -1`, not `0`: scanning the one-byte
stream `b"a"` for `b"a"` yields exactly one match whose position is `-1`,
although the occurrence starts at logical offset `0` and the spec demands
`0 <= absolute_position`.  The source initialises `position = -1`
(src.py line 194) where the logical offset of the first window is `0`,
so every reported position is one less than the true offset. -/
theorem scan_stream_first_position_eval :
    scan_stream [97] [97] 10 4 =
      [{ match_value := [97], absolute_position := -1,
         left_context := [], right_context := [] }] := by
  rfl

/-- C2: scanning `b"aaaa"` for `b"aa"` with `around_context = 0` and
`buffer_size = 2` yields four matches with positions `-1, -1, 0, 1`: the
occurrence at the start of the stream is reported twice (the retained
tail keeps `around + len(pattern)` bytes, one more than needed, so a
match lying wholly inside the tail is found again in the next window),
whereas the claim demands exactly one match per starting index
(three matches). -/
theorem scan_stream_double_count_eval :
    (scan_stream [97, 97, 97, 97] [97, 97] 0 2).map
        PipeekMatch.absolute_position = [-1, -1, 0, 1] := by
  rfl

/-- C3: chunk size is observable.  Scanning `b"aaaa"` for `b"aa"` with
`around_context = 0` and the chunk sizes `B1 = 4` and `B2 = 2` — both
satisfying `around + len(pattern) - 1 = 1 < min(B1, B2)` — yields three
matches in the first case and four in the second, so the two match
sequences differ, contradicting the claimed chunk-size independence. -/
theorem scan_stream_chunk_size_dependence_eval :
    (scan_stream [97, 97, 97, 97] [97, 97] 0 4).map
        PipeekMatch.absolute_position = [-1, 0, 1] ∧
    (scan_stream [97, 97, 97, 97] [97, 97] 0 2).map
        PipeekMatch.absolute_position = [-1, -1, 0, 1] := by
  exact ⟨rfl, rfl⟩

/-- C4: yielded positions are not strictly increasing.  Scanning
`b"aaaa"` for `b"a"` with `around_context = 1` and `buffer_size = 2`
yields positions `-1, 0, -1, 0, 1, 2`: the occurrences re-found inside
the carried tail repeat earlier positions, so consecutive yielded
positions decrease (from `0` back to `-1`). -/
theorem scan_stream_not_strictly_increasing_eval :
    (scan_stream [97, 97, 97, 97] [97] 1 2).map
        PipeekMatch.absolute_position = [-1, 0, -1, 0, 1, 2] ∧
    ¬ List.Chain' (fun a b => a < b)
      ((scan_stream [97, 97, 97, 97] [97] 1 2).map
        PipeekMatch.absolute_position) := by
  refine ⟨rfl, ?_⟩
  have hlist : (scan_stream [97, 97, 97, 97] [97] 1 2).map
      PipeekMatch.absolute_position = [-1, 0, -1, 0, 1, 2] := rfl
  rw [hlist]
  simp [List.chain'_cons]

/-- C5 counterexample: `scan_stream` does not reject the empty pattern.
Over the one-byte stream `b"a"` with empty pattern it reads the stream
and yields two matches (one per window index, including the end index),
whereas the claim says it fails fast with an invalid-argument error
before any read and yields no matches. -/
theorem scan_stream_empty_pattern_counterexample :
    (scan_stream [97] [] 10 4).length = 2 := by
  rfl

/-- C5 amended: `scan_stream` performs no validation of the pattern.
With an empty pattern it proceeds to read the stream and yields one
match per index of each scanned window: for a non-empty stream read in a
single chunk it yields `length + 1` matches instead of failing. -/
theorem scan_stream_empty_pattern (stream : List Nat)
    (around_context buffer_size : Nat)
    (h1 : stream ≠ []) (h2 : stream.length ≤ buffer_size) :
    (scan_stream stream [] around_context buffer_size).length =
      stream.length + 1 := by
  unfold scan_stream
  have htake : stream.take buffer_size = stream := List.take_of_length_le h2
  have hdrop : stream.drop buffer_size = [] := List.drop_eq_nil_of_le h2
  obtain ⟨a, t, rfl⟩ : ∃ a t, stream = a :: t := by
    cases stream with
    | nil => exact absurd rfl h1
    | cons a t => exact ⟨a, t, rfl⟩
  simp only [List.length_cons]
  rw [scan_stream_loop]
  simp only [htake, hdrop, List.nil_append, reduceIte]
  rw [scan_stream_loop]
  simp only [List.take_nil, reduceIte]
  simp [iter_needles_idx_nil_length]

/-- Witness for the amended C5 at the concrete stream `b"ab"` with
`around_context = 0` and `buffer_size = 2`. -/
theorem scan_stream_empty_pattern_witness :
    ([97, 98] : List Nat) ≠ [] ∧
    (scan_stream [97, 98] [] 0 2).length = ([97, 98] : List Nat).length + 1 :=
  ⟨by decide, scan_stream_empty_pattern [97, 98] 0 2 (by decide) (by decide)⟩

/-- C6 counterexample: the Point Reader does not clamp the seek target.
Reading at offset `0` with window length `2` and context width `5` from
the stream `b"abc"` seeks to `0 - 5 = -5`, which raises `OSError` on a
regular file (modelled as `none`), so no window at all is produced,
whereas the claim says the seek is clamped to `max(0, k - a) = 0` and
the round-trip holds in particular when `k < a`. -/
theorem peek_at_negative_seek_counterexample :
    peek_at [97, 98, 99] 0 2 5 = none := by
  rfl

/-- C6 amended: for `around_context ≤ index` the Point Reader seeks to
`index - around_context`, reads `length + 2 * around_context` bytes
clamped at end of stream, and concatenating left context, window and
right context reproduces exactly the bytes
`stream[index - around_context : index + length + around_context]`
clamped to the stream length; for `index < around_context` the
unclamped negative seek fails instead. -/
theorem peek_at_round_trip (stream : List Nat)
    (index length around_context : Nat) (h : around_context ≤ index) :
    ((peek_at stream index length around_context).map (fun m =>
        m.left_context ++ m.match_value ++ m.right_context)) =
      some ((stream.drop (index - around_context)).take
        (length + 2 * around_context)) := by
  unfold peek_at
  rw [if_neg (by omega)]
  simp only [Option.map_some']
  have hmax : max 0 around_context = around_context := by omega
  simp only [hmax]
  rw [List.append_assoc]
  exact congrArg some (slice_concat _ around_context length)

/-- Witness for the amended C6 at the stream `b"abcd"`, offset `2`,
window length `1`, context width `1`. -/
theorem peek_at_round_trip_witness :
    (1 : Nat) ≤ 2 ∧
    ((peek_at [97, 98, 99, 100] 2 1 1).map (fun m =>
        m.left_context ++ m.match_value ++ m.right_context)) =
      some ((([97, 98, 99, 100] : List Nat).drop (2 - 1)).take (1 + 2 * 1)) :=
  ⟨by decide, peek_at_round_trip [97, 98, 99, 100] 2 1 1 (by decide)⟩

/-- C7: `check_sum` crashes on every non-empty stream instead of
comparing digests.  For the one-byte file `b"a"` and the correct digest
of its full content, the call raises `TypeError` (the body iterates the
integer byte values of a single read and hands an `int` to
`hash.update`), so it does not return `True` for a file whose content
hashes to the expected digest. -/
theorem check_sum_type_error_eval :
    check_sum [97] (hash_digest "md5" [97]) "md5" =
      Except.error "TypeError" := by
  rfl

/-- C8 counterexample: with the directory root `d` containing the single
regular file `d/f`, and `d/f` itself also given as a root, `walk` yields
the path `d/f` twice in a single call (once as a non-directory root
passed through, once from traversing `d`), whereas the claim says no
file is ever yielded twice in a single call. -/
theorem walk_duplicate_yield_counterexample :
    (walk (fun p => p == ["d"]) (fun _ => [(["d"], ["f"])])
        [["d", "f"], ["d"]]).count ["d", "f"] = 2 := by
  decide

/-- C8 amended: `walk` yields each non-directory root as-is and every
regular file under each directory root, and a file can be yielded more
than once when one root lies beneath another directory root; over a
single directory root containing `N` regular files and no
subdirectories (distinct filenames) it yields exactly `N` paths, each
appearing once. -/
theorem walk_single_dir_exact (is_dir : PPath → Bool)
    (os_walk : PPath → List (PPath × List String))
    (d : PPath) (names : List String)
    (hd : is_dir d = true) (hw : os_walk d = [(d, names)])
    (hn : names.Nodup) :
    (walk is_dir os_walk [d]).length = names.length ∧
    (walk is_dir os_walk [d]).Nodup := by
  have hwalk : walk is_dir os_walk [d] =
      names.map (fun filename => d ++ [filename]) := by
    simp [walk, hd, hw]
  rw [hwalk]
  constructor
  · simp
  · refine List.Nodup.map ?_ hn
    intro a b hab
    have hs : [a] = [b] := List.append_cancel_left hab
    simpa using hs

/-- Witness for the amended C8 at a root directory `r` with the two
files `a` and `b`. -/
theorem walk_single_dir_exact_witness :
    (walk (fun p => p == ["r"]) (fun _ => [(["r"], ["a", "b"])])
        [["r"]]).length = (["a", "b"] : List String).length ∧
    (walk (fun p => p == ["r"]) (fun _ => [(["r"], ["a", "b"])])
        [["r"]]).Nodup :=
  walk_single_dir_exact (fun p => p == ["r"]) (fun _ => [(["r"], ["a", "b"])])
    ["r"] ["a", "b"] (by decide) rfl (by decide)

/-- C9: `open_stream` applied to the stdin sentinel path `"-"` returns
the process's standard input stream directly, for either value of the
force-decompress flag: the sentinel check precedes every decompression
branch, including the forced-gzip one. -/
theorem open_stream_stdin_sentinel (force_gzip : Bool) :
    open_stream "-" force_gzip = Opened.stdinBuffer := by
  rfl

end Pipeek
